import Mathlib

/-!
Verification development for the playform terrain LOD streaming coordinator.

The coordinator code embedded here is `src/server/src/terrain/terrain_game_loader.rs`
(`TerrainGameLoader::load`, `insert_block`, `unload`) together with the event
forwarding in `src/server/src/update_world.rs` (`load_placeholders`), and the
procedural generator `src/src/terrain.rs` (`Terrain::generate_block`, `add_square`).

The owner registry (`common::lod::LODMap`), the generation cache
(`Terrain::all_blocks` with per-LOD slots), the placeholder-volume channel
(`InProgressTerrain`) and the physics shape store are code of the repository
that is not present under `src/`; they are modelled from the spec as marked
on each definition.

Machine floats (`GLfloat`) are modelled as exact rationals; the heightmap noise
function and the vector normalisation routine (external collaborators) are taken
as function parameters, so every theorem quantifies over them.
-/

/-- Block position: integer 3-coordinate cell identifier (`BlockPosition`). -/
structure BlockPosition where
  x : Int
  y : Int
  z : Int
deriving DecidableEq

/-- Owner identifier: opaque token, only equality is used (`OwnerId`). -/
abbrev OwnerId : Type := Nat

/-- Entity / content id handed out by the id allocator (`EntityId`). -/
abbrev EntityId : Type := Nat

/-- Detail level: the sentinel `Placeholder` or a real ranked level
`LodIndex n` (`common::lod::LOD`).  Modelled from the spec: the domain is
totally ordered with `Placeholder` as the minimal sentinel and real levels
ordered by their index. -/
inductive LOD where
  | Placeholder : LOD
  | LodIndex : Nat → LOD
deriving DecidableEq

/-- Modelled from the spec: the total order on detail levels
(`Placeholder` below every real level, real levels by index). -/
def lodLe : LOD → LOD → Bool
  | LOD.Placeholder, _ => true
  | LOD.LodIndex _, LOD.Placeholder => false
  | LOD.LodIndex a, LOD.LodIndex b => decide (a ≤ b)

/-- Strict version of `lodLe`. -/
def lodLt (a b : LOD) : Bool := !(lodLe b a)

/-- Transition returned by a registry operation that changes a block's
maximum: previous loaded maximum and new desired maximum.  Modelled from the
spec (§4.1 `Transition{desired, loaded}`). -/
structure Transition where
  loaded : Option LOD
  desired : Option LOD
deriving DecidableEq

/-- Per-block registry entry: each owner's requested level plus the block's
current maximum.  Modelled from the spec (§4.1 Owner Registry). -/
structure BlockLoadState where
  owner_lods : List (OwnerId × LOD)
  loaded_lod : Option LOD
deriving DecidableEq

/-- Association-list lookup (used for all of the modelled maps). -/
def assocGet {α β : Type} [DecidableEq α] : List (α × β) → α → Option β
  | [], _ => none
  | (k, v) :: r, a => if a = k then some v else assocGet r a

/-- Association-list insert-or-replace. -/
def assocSet {α β : Type} [DecidableEq α] : List (α × β) → α → β → List (α × β)
  | [], a, b => [(a, b)]
  | (k, v) :: r, a, b => if a = k then (k, b) :: r else (k, v) :: assocSet r a b

/-- Association-list delete. -/
def assocDel {α β : Type} [DecidableEq α] : List (α × β) → α → List (α × β)
  | [], _ => []
  | (k, v) :: r, a => if a = k then assocDel r a else (k, v) :: assocDel r a

/-- Maximum requested level over a list of owner records (`none` when empty). -/
def maxRecords : List (OwnerId × LOD) → Option LOD
  | [] => none
  | (_, l) :: r =>
    match maxRecords r with
    | none => some l
    | some m => some (if lodLe l m then m else l)

/-- The owner registry: per-block load state (`common::lod::LODMap`).
Modelled from the spec (§4.1). -/
abbrev LODMap : Type := List (BlockPosition × BlockLoadState)

/-- Modelled from the spec: the §4.1 maximum-change decision algorithm.
`prev` is the block's current maximum, `lods` the existing owner records
(including the one being updated, pre-update), `new` the level being
inserted:  absent maximum always changes; equal level never changes;
lowering changes only if fewer than 2 records hold a level at least `prev`;
raising changes only if no record holds a level at least `new`. -/
def specMaxChanged (prev : Option LOD) (lods : List (OwnerId × LOD)) (new : LOD) : Bool :=
  match prev with
  | none => true
  | some p =>
    if new = p then false
    else if lodLt new p then
      decide ((lods.filter (fun ol => lodLe p ol.2)).length < 2)
    else
      decide ((lods.filter (fun ol => lodLe new ol.2)).length = 0)

/-- Modelled from the spec: `LODMap::get` — read-only snapshot of a block's
current maximum and owner records (`none` when the block has no entry). -/
def lodMapGet (m : LODMap) (pos : BlockPosition) :
    Option (Option LOD × List (OwnerId × LOD)) :=
  (assocGet m pos).map (fun bls => (bls.loaded_lod, bls.owner_lods))

/-- Modelled from the spec: `LODMap::insert` — set/overwrite this owner's
requested level; return the owner's old level and a transition exactly when
the §4.1 decision algorithm reports a maximum change, in which case the
stored maximum becomes the recomputed maximum over the updated records. -/
def lodMapInsert (m : LODMap) (pos : BlockPosition) (lod : LOD) (owner : OwnerId) :
    (Option LOD × Option Transition) × LODMap :=
  let bls :=
    match assocGet m pos with
    | some b => b
    | none => { owner_lods := [], loaded_lod := none }
  let old := assocGet bls.owner_lods owner
  let newRecords := assocSet bls.owner_lods owner lod
  if specMaxChanged bls.loaded_lod bls.owner_lods lod then
    let desired := maxRecords newRecords
    ((old, some { loaded := bls.loaded_lod, desired := desired }),
      assocSet m pos { owner_lods := newRecords, loaded_lod := desired })
  else
    ((old, none), assocSet m pos { owner_lods := newRecords, loaded_lod := bls.loaded_lod })

/-- Modelled from the spec: `LODMap::remove` — delete this owner's record,
recompute the maximum over the remaining owners, signal a transition iff it
differs from the stored maximum, and destroy the entry when the owner set
becomes empty. -/
def lodMapRemove (m : LODMap) (pos : BlockPosition) (owner : OwnerId) :
    (Option LOD × Option Transition) × LODMap :=
  match assocGet m pos with
  | none => ((none, none), m)
  | some bls =>
    let old := assocGet bls.owner_lods owner
    let newRecords := assocDel bls.owner_lods owner
    let newMax := maxRecords newRecords
    let change :=
      if newMax = bls.loaded_lod then none
      else some { loaded := bls.loaded_lod, desired := newMax }
    ((old, change),
      if newRecords = [] then assocDel m pos
      else assocSet m pos { owner_lods := newRecords, loaded_lod := newMax })

/-- Generated block content as the coordinator sees it (`common::terrain_block::TerrainBlock`).
Modelled from the spec: a bounding-box-per-feature decomposition, each feature
identified by a content id; the box payload is abstracted to a tag. -/
structure Content where
  ids : List EntityId
  bounds : List (EntityId × Nat)
deriving DecidableEq

/-- Generation cache, indexed by block position and real detail-level index
(`Terrain::all_blocks` with per-LOD mipmesh slots).  Modelled from the spec
(§4.4 `get(block, level) -> Option<Content>`); the server's two-level
block-then-slot structure is collapsed into one keyed lookup, which the
coordinator code treats identically (fetch / treat-as-absent). -/
abbrev GenCache : Type := List ((BlockPosition × Nat) × Content)

/-- Whole coordinator-visible state: owner registry, placeholder volumes
present (`InProgressTerrain`, modelled from the spec as the set of blocks
whose coarse placeholder volume exists), terrain collision-shape ids resident
in physics (`Physics`, modelled from the spec as the id-keyed shape store),
and the generation cache. -/
structure ServerState where
  lodMap : LODMap
  inProgress : List BlockPosition
  physics : List EntityId
  cache : GenCache
deriving DecidableEq

/-- Outbound effect of a coordinator operation: an asynchronous generation
request `ServerToGaia::Load(position, lod, LoadReason::Local(owner))`. -/
inductive Event where
  | fetch : BlockPosition → Nat → OwnerId → Event
deriving DecidableEq

/-- A failed `assert!`/`unwrap` in the coordinator (fatal in debug builds). -/
inductive Crash where
  | assertionFailure : Crash
deriving DecidableEq

instance {e a : Type} [DecidableEq e] [DecidableEq a] : DecidableEq (Except e a) :=
  fun x y =>
    match x, y with
    | Except.ok v, Except.ok w =>
      if h : v = w then isTrue (by rw [h]) else isFalse (by intro hc; cases hc; exact h rfl)
    | Except.error v, Except.error w =>
      if h : v = w then isTrue (by rw [h]) else isFalse (by intro hc; cases hc; exact h rfl)
    | Except.ok _, Except.error _ => isFalse (by intro hc; cases hc)
    | Except.error _, Except.ok _ => isFalse (by intro hc; cases hc)

/-- Modelled from the spec: `InProgressTerrain::remove` — destroy the coarse
placeholder volume of a block (no-op when absent). -/
def removeInProgress (l : List BlockPosition) (pos : BlockPosition) : List BlockPosition :=
  l.filter (fun p => decide (p ≠ pos))

/-- The maximum-LOD-change decision exactly as written in
`TerrainGameLoader::load` (terrain_game_loader.rs lines 45-68), as a function
of the registry `get` snapshot and the requested level.  The early-return
case `new == prev` is recorded as `false` (no change). -/
def codeMaxChanged (g : Option (Option LOD × List (OwnerId × LOD))) (new : LOD) : Bool :=
  match g with
  | some (some prev, lods) =>
    if new = prev then false
    else if lodLt new prev then
      decide ((lods.filter (fun ol => lodLe prev ol.2)).length < 2)
    else
      decide ((lods.filter (fun ol => lodLe new ol.2)).length = 0)
  | some (none, lods) =>
    decide ((lods.filter (fun ol => lodLe new ol.2)).length = 0)
  | none => true

/-- `TerrainGameLoader::insert_block` (terrain_game_loader.rs lines 120-162):
insert the owner's level into the registry; a `None` transition returns at
once (stale completion short-circuit); otherwise assert the transition's
desired level is the inserted one, tear down the previous loaded state —
note the source removes the ids of the block being inserted, not of the
previously loaded level — and insert the new block's shapes. -/
def insertBlockOp (block : Content) (pos : BlockPosition) (n : Nat) (owner : OwnerId)
    (s : ServerState) : Except Crash (ServerState × List Event) :=
  let lod := LOD.LodIndex n
  let r := lodMapInsert s.lodMap pos lod owner
  let s1 : ServerState := { s with lodMap := r.2 }
  match r.1.2 with
  | none => Except.ok (s1, [])
  | some change =>
    if change.desired = some lod then
      let s2 : ServerState :=
        match change.loaded with
        | none => s1
        | some LOD.Placeholder =>
          { s1 with inProgress := removeInProgress s1.inProgress pos }
        | some (LOD.LodIndex _) =>
          { s1 with physics := s1.physics.filter (fun i => decide (i ∉ block.ids)) }
      Except.ok ({ s2 with physics := s2.physics ++ block.bounds.map Prod.fst }, [])
    else Except.error Crash.assertionFailure

/-- Cache lookup for a real level (`self.terrain.all_blocks.get(pos)` followed
by the per-LOD slot in `mipmesh.lods`). -/
def cacheGet (c : GenCache) (pos : BlockPosition) (n : Nat) : Option Content :=
  assocGet c (pos, n)

/-- Tail of `TerrainGameLoader::load` after `max_lod_changed` and `prev_lod`
are computed (terrain_game_loader.rs lines 70-117): bookkeeping-only insert
when the maximum is unchanged (asserting the registry agrees that nothing
changed); the `Placeholder` branch with its three assertions and placeholder
volume creation; the `LodIndex` branch consulting the cache and either
dispatching a fetch or applying the block immediately. -/
def loadRest (s : ServerState) (pos : BlockPosition) (new_lod : LOD) (owner : OwnerId)
    (prev_lod : Option LOD) (max_lod_changed : Bool) :
    Except Crash (ServerState × List Event) :=
  if max_lod_changed then
    match new_lod with
    | LOD.Placeholder =>
      let r := lodMapInsert s.lodMap pos new_lod owner
      match r.1.2 with
      | none => Except.error Crash.assertionFailure
      | some change =>
        if change.loaded = none then
          if prev_lod = (none : Option LOD) then
            if change.desired = some LOD.Placeholder then
              Except.ok ({ s with lodMap := r.2, inProgress := pos :: s.inProgress }, [])
            else Except.error Crash.assertionFailure
          else Except.error Crash.assertionFailure
        else Except.error Crash.assertionFailure
    | LOD.LodIndex n =>
      match cacheGet s.cache pos n with
      | none => Except.ok (s, [Event.fetch pos n owner])
      | some block => insertBlockOp block pos n owner s
  else
    let r := lodMapInsert s.lodMap pos new_lod owner
    if r.1.2 = none then Except.ok ({ s with lodMap := r.2 }, [])
    else Except.error Crash.assertionFailure

/-- `TerrainGameLoader::load` (terrain_game_loader.rs lines 35-118): snapshot
the registry, return at once on an identical re-request, compute the
maximum-change decision exactly as the source does, then continue in
`loadRest`. -/
def loadOp (s : ServerState) (pos : BlockPosition) (new_lod : LOD) (owner : OwnerId) :
    Except Crash (ServerState × List Event) :=
  match lodMapGet s.lodMap pos with
  | some (some prev, lods) =>
    if new_lod = prev then Except.ok (s, [])
    else
      loadRest s pos new_lod owner (some prev)
        (codeMaxChanged (some (some prev, lods)) new_lod)
  | some (none, lods) =>
    loadRest s pos new_lod owner none (codeMaxChanged (some (none, lods)) new_lod)
  | none =>
    loadRest s pos new_lod owner none (codeMaxChanged none new_lod)

/-- `TerrainGameLoader::unload` (terrain_game_loader.rs lines 164-211): remove
the owner from the registry; without a transition return; otherwise destroy
the placeholder volume or, for a real loaded level, remove the cached
content's shapes — treating an absent cache entry or level slot as already
unloaded.  The operation contains no assertion and cannot fail. -/
def unloadOp (s : ServerState) (pos : BlockPosition) (owner : OwnerId) : ServerState :=
  let r := lodMapRemove s.lodMap pos owner
  let s1 : ServerState := { s with lodMap := r.2 }
  match r.1.2 with
  | none => s1
  | some change =>
    match change.loaded with
    | none => s1
    | some LOD.Placeholder =>
      { s1 with inProgress := removeInProgress s1.inProgress pos }
    | some (LOD.LodIndex l) =>
      match cacheGet s1.cache pos l with
      | none => s1
      | some block =>
        { s1 with physics := s1.physics.filter (fun i => decide (i ∉ block.ids)) }

/-- Modelled from the spec: `put(block, level, content)` on the generation
cache (performed by the generation worker; overwrite allowed). -/
def cachePut (s : ServerState) (pos : BlockPosition) (n : Nat) (c : Content) : ServerState :=
  { s with cache := assocSet s.cache (pos, n) c }

/-- The coordinator's initial state: no owners, no placeholder volumes, no
physics shapes, empty cache. -/
def initState : ServerState :=
  { lodMap := [], inProgress := [], physics := [], cache := [] }

/-- States reachable by any interleaving of `load` and `unload` calls,
generation-worker completions delivered through `insert_block`, and cache
population by the generation worker.  Crashing calls produce no successor. -/
inductive Reachable : ServerState → Prop where
  | init : Reachable initState
  | step_load : ∀ s s' pos lod owner ev, Reachable s →
      loadOp s pos lod owner = Except.ok (s', ev) → Reachable s'
  | step_unload : ∀ s pos owner, Reachable s → Reachable (unloadOp s pos owner)
  | step_insert_block : ∀ s s' block pos n owner ev, Reachable s →
      insertBlockOp block pos n owner s = Except.ok (s', ev) → Reachable s'
  | step_cache_put : ∀ s pos n c, Reachable s → Reachable (cachePut s pos n c)

/-- A surroundings-planner event (`common::surroundings_loader::LODChange`).
Modelled from the spec: `Load(block, detail_level)` / `Unload(block)`. -/
inductive LODChange where
  | Load : BlockPosition → LOD → LODChange
  | Unload : BlockPosition → LODChange
deriving DecidableEq

/-- The coordinator call issued by the World Update Driver for one planner
event: either `load` or `unload` with the given arguments. -/
inductive CoordinatorCall where
  | load : BlockPosition → LOD → OwnerId → CoordinatorCall
  | unload : BlockPosition → OwnerId → CoordinatorCall
deriving DecidableEq

/-- `load_placeholders` (update_world.rs lines 110-138) as the coordinator
call it issues for a planner event: a `Load(pos, _)` event calls `load` with
`LOD::Placeholder` (the event's detail level is discarded), an `Unload(pos)`
event calls `unload` with that position, both for the emitting owner. -/
def load_placeholders (owner : OwnerId) (lc : LODChange) : CoordinatorCall :=
  match lc with
  | LODChange.Load pos _ => CoordinatorCall.load pos LOD.Placeholder owner
  | LODChange.Unload pos => CoordinatorCall.unload pos owner

/-- A 3-component point/vector (`nalgebra::Pnt3`/`Vec3`), used with exact
rationals in place of `f32`. -/
structure Pnt3 (α : Type) where
  x : α
  y : α
  z : α
deriving DecidableEq

/-- Cross product of two rational 3-vectors (`nalgebra::cross`). -/
def cross3 (a b : Pnt3 ℚ) : Pnt3 ℚ :=
  { x := a.y * b.z - a.z * b.y
  , y := a.z * b.x - a.x * b.z
  , z := a.x * b.y - a.y * b.x }

/-- Componentwise difference of points (`center - *v1`, `v2 - v1`). -/
def sub3 (a b : Pnt3 ℚ) : Pnt3 ℚ :=
  { x := a.x - b.x, y := a.y - b.y, z := a.z - b.z }

/-- Terrain type of a triangle (`TerrainType`, terrain.rs lines 26-31). -/
inductive TerrainType where
  | Grass : TerrainType
  | Dirt : TerrainType
  | Stone : TerrainType
deriving DecidableEq

/-- The `as GLuint` cast of a terrain type (declaration order of the enum). -/
def terrainTypeCode : TerrainType → Nat
  | TerrainType.Grass => 0
  | TerrainType.Dirt => 1
  | TerrainType.Stone => 2

/-- Client-side generated block (`TerrainBlock`, terrain.rs lines 35-46):
flattened vertex coordinates, flattened per-triangle normals, per-triangle
terrain-type codes, per-triangle entity ids, and the per-triangle bounding
boxes keyed by entity id (a hash map, modelled as an association list with
insert-or-replace). -/
structure TerrainBlock where
  vertex_coordinates : List ℚ
  normals : List ℚ
  typs : List Nat
  ids : List EntityId
  bounds : List (EntityId × (Pnt3 ℚ × Pnt3 ℚ))
deriving DecidableEq

/-- `TerrainBlock::new()`: all collections empty. -/
def TerrainBlock.empty : TerrainBlock :=
  { vertex_coordinates := [], normals := [], typs := [], ids := [], bounds := [] }

/-- The heightmap sample `at!(x, z)` of `add_square`:
`y = AMPLITUDE * (heightmap.get(x, z) + 1) / 2` with `AMPLITUDE = 64`. -/
def heightAt (h : ℚ → ℚ → ℚ) (x z : ℚ) : Pnt3 ℚ :=
  { x := x, y := 64 * (h x z + 1) / 2, z := z }

/-- The `place_terrain` closure of `Terrain::add_square` (terrain.rs lines
215-248): push the (optional) normal, allocate a fresh id, push the three
vertices, the terrain-type code, the id, and insert the id-keyed bounding
box.  `nv` is the external `normalize` routine, `ul` the `USE_LIGHTING`
flag, and the allocator is the running `Nat` next-id counter. -/
def place_terrain (nv : Pnt3 ℚ → Pnt3 ℚ) (ul : Bool) (center : Pnt3 ℚ) (tt : TerrainType)
    (st : TerrainBlock × Nat) (v1 v2 : Pnt3 ℚ) (minx minz maxx maxz : ℚ) :
    TerrainBlock × Nat :=
  let b := st.1
  let maxy0 := v1.y
  let maxy1 := if v2.y > v1.y then v2.y else maxy0
  let maxy := if center.y > maxy1 then center.y else maxy1
  let b :=
    if ul then
      let side1 := sub3 center v1
      let side2 := sub3 v2 v1
      let normal := nv (cross3 side1 side2)
      { b with normals := b.normals ++ [normal.x, normal.y, normal.z] }
    else b
  let id := st.2
  ({ b with
      vertex_coordinates := b.vertex_coordinates ++
        [v1.x, v1.y, v1.z, v2.x, v2.y, v2.z, center.x, center.y, center.z]
    , typs := b.typs ++ [terrainTypeCode tt]
    , ids := b.ids ++ [id]
    , bounds := assocSet b.bounds id
        ({ x := minx, y := v1.y, z := minz }, { x := maxx, y := maxy, z := maxz }) },
   id + 1)

/-- `Terrain::add_square` (terrain.rs lines 176-256): sample the block
centre; when the surface lies within this block's vertical slab, sample the
four corners, pick the terrain type from how many corners exceed the centre,
and place four triangles.  `SAMPLE_WIDTH = 1/4`, `half_width = 1/8`,
`BLOCK_WIDTH = 4`. -/
def add_square (h : ℚ → ℚ → ℚ) (nv : Pnt3 ℚ → Pnt3 ℚ) (ul : Bool)
    (st : TerrainBlock × Nat) (position : Pnt3 ℚ) : TerrainBlock × Nat :=
  let center := heightAt h (position.x + 1/8) (position.z + 1/8)
  if position.y < center.y ∧ center.y ≤ position.y + 4 then
    let x2 := position.x + 1/4
    let z2 := position.z + 1/4
    let v1 := heightAt h position.x position.z
    let v2 := heightAt h position.x z2
    let v3 := heightAt h x2 z2
    let v4 := heightAt h x2 position.z
    let center_lower_than :=
      ([v1, v2, v3, v4].filter (fun v => decide (center.y < v.y))).length
    let tt := if center_lower_than ≥ 3 then TerrainType.Dirt else TerrainType.Grass
    let st := place_terrain nv ul center tt st v1 v2 v1.x v1.z center.x v2.z
    let st := place_terrain nv ul center tt st v2 v3 v2.x center.z v3.x v3.z
    let st := place_terrain nv ul center tt st v3 v4 center.x center.z v3.x v3.z
    let st := place_terrain nv ul center tt st v4 v1 v1.x v1.z v4.x center.z
    st
  else st

/-- The per-axis sample offsets `dx * SAMPLE_WIDTH` for `dx in 0..16`. -/
def sampleOffsets : List ℚ :=
  (List.range 16).map (fun (i : ℕ) => (i : ℚ) * (1/4))

/-- `Terrain::generate_block` (terrain.rs lines 146-174): starting from an
empty block, run `add_square` on the 16 × 16 grid of sample positions of the
block (outer loop over `dx`, inner over `dz`; the `y` coordinate is the
block's base and never varies), threading the id allocator through. -/
def generate_block (h : ℚ → ℚ → ℚ) (nv : Pnt3 ℚ → Pnt3 ℚ) (ul : Bool)
    (position : Pnt3 Int) (alloc : Nat) : TerrainBlock × Nat :=
  let x0 : ℚ := ((position.x * 4 : Int) : ℚ)
  let y0 : ℚ := ((position.y * 4 : Int) : ℚ)
  let z0 : ℚ := ((position.z * 4 : Int) : ℚ)
  sampleOffsets.foldl
    (fun st dx =>
      sampleOffsets.foldl
        (fun st dz => add_square h nv ul st { x := x0 + dx, y := y0, z := z0 + dz })
        st)
    (TerrainBlock.empty, alloc)

/-- The current-maximum component of a registry `get` snapshot (the spec's
`prev`: absent when the block has no entry). -/
def snapshotMax (g : Option (Option LOD × List (OwnerId × LOD))) : Option LOD :=
  match g with
  | none => none
  | some (p, _) => p

/-- The owner-record component of a registry `get` snapshot. -/
def snapshotRecords (g : Option (Option LOD × List (OwnerId × LOD))) :
    List (OwnerId × LOD) :=
  match g with
  | none => []
  | some (_, lods) => lods

/-- Registry well-formedness: every present block entry stores a current
maximum (an entry with owner records but no maximum never arises). -/
def MapInv (m : LODMap) : Prop :=
  ∀ pos bls, assocGet m pos = some bls → bls.loaded_lod ≠ none

/-- Internal consistency of a generated client block together with the
allocator bound: the bounds keys are exactly the ids in order, the ids are
pairwise distinct and all below the allocator's next id, and there is one
terrain-type entry per id. -/
def GoodBlock (st : TerrainBlock × Nat) : Prop :=
  st.1.bounds.map Prod.fst = st.1.ids ∧ st.1.ids.Nodup ∧
    (∀ i ∈ st.1.ids, i < st.2) ∧ st.1.typs.length = st.1.ids.length

/-- Two generator states agree on everything that does not involve entity
ids: vertex coordinates, normals, terrain types, and the number of ids. -/
def SameGeometry (s t : TerrainBlock × Nat) : Prop :=
  s.1.vertex_coordinates = t.1.vertex_coordinates ∧ s.1.normals = t.1.normals ∧
    s.1.typs = t.1.typs ∧ s.1.ids.length = t.1.ids.length

/-- Concrete block position used by the concrete runs below. -/
def posW : BlockPosition := { x := 0, y := 0, z := 0 }

/-- Concrete level-0 content, one feature with id 10. -/
def content10 : Content := { ids := [10], bounds := [(10, 0)] }

/-- Concrete level-1 content, one feature with id 20. -/
def content20 : Content := { ids := [20], bounds := [(20, 0)] }

/-- Initial state with level-0 and level-1 content cached for `posW`. -/
def stateC2start : ServerState :=
  { initState with cache := [((posW, 0), content10), ((posW, 1), content20)] }

/-- State after owner 1 loads level 0 of `posW` from `stateC2start`. -/
def stateC2mid : ServerState :=
  { lodMap := [(posW, { owner_lods := [(1, LOD.LodIndex 0)], loaded_lod := some (LOD.LodIndex 0) })]
  , inProgress := []
  , physics := [10]
  , cache := [((posW, 0), content10), ((posW, 1), content20)] }

/-- State after owner 1 then re-levels `posW` to level 1: the level-0 shape
id 10 is still resident next to the level-1 shape id 20. -/
def stateC2end : ServerState :=
  { lodMap := [(posW, { owner_lods := [(1, LOD.LodIndex 1)], loaded_lod := some (LOD.LodIndex 1) })]
  , inProgress := []
  , physics := [10, 20]
  , cache := [((posW, 0), content10), ((posW, 1), content20)] }

/-- Initial state with only level-1 content cached for `posW`. -/
def stateC3start : ServerState :=
  { initState with cache := [((posW, 1), content20)] }

/-- State after owner 1 loads level 1 of `posW` from `stateC3start`. -/
def stateC3mid : ServerState :=
  { lodMap := [(posW, { owner_lods := [(1, LOD.LodIndex 1)], loaded_lod := some (LOD.LodIndex 1) })]
  , inProgress := []
  , physics := [20]
  , cache := [((posW, 1), content20)] }

/-- State produced by delivering a stale level-1 completion for `posW` to the
empty coordinator: the released block ends up resident. -/
def stateC4end : ServerState :=
  { lodMap := [(posW, { owner_lods := [(1, LOD.LodIndex 1)], loaded_lod := some (LOD.LodIndex 1) })]
  , inProgress := []
  , physics := [20]
  , cache := [] }

/-- A state with a single owner holding level 1 of `posW`, and nothing cached. -/
def stateSingleOwner : ServerState :=
  { lodMap := [(posW, { owner_lods := [(1, LOD.LodIndex 1)], loaded_lod := some (LOD.LodIndex 1) })]
  , inProgress := []
  , physics := []
  , cache := [] }

/-- A state with two owners both holding the maximum level 2 of `posW`. -/
def stateTwoAtMax : ServerState :=
  { lodMap := [(posW, { owner_lods := [(1, LOD.LodIndex 2), (2, LOD.LodIndex 2)], loaded_lod := some (LOD.LodIndex 2) })]
  , inProgress := []
  , physics := []
  , cache := [] }

/-- Reachable state used as the concrete instance for the decision theorem:
level-0 content cached and loaded by owner 1. -/
def stateC1w : ServerState :=
  { lodMap := [(posW, { owner_lods := [(1, LOD.LodIndex 0)], loaded_lod := some (LOD.LodIndex 0) })]
  , inProgress := []
  , physics := [10]
  , cache := [((posW, 0), content10)] }

/-- A concrete heightmap: noise 0 everywhere, so every sample of a block
whose vertical slab contains height 32 generates terrain. -/
def heightZero : ℚ → ℚ → ℚ :=
  fun _ _ => 0

/-- Concrete block position `(0, 7, 0)` whose vertical slab `(28, 32]`
contains the constant surface height 32. -/
def pnt070 : Pnt3 Int := { x := 0, y := 7, z := 0 }

theorem assocGet_assocSet_self {α β : Type} [DecidableEq α] (m : List (α × β)) (k : α) (v : β) :
    assocGet (assocSet m k v) k = some v := by
  induction m with
  | nil => simp [assocGet, assocSet]
  | cons hd tl ih =>
    obtain ⟨a, b⟩ := hd
    by_cases h : k = a
    · subst h
      simp [assocGet, assocSet]
    · simp [assocGet, assocSet, h, ih]

theorem assocGet_assocSet_ne {α β : Type} [DecidableEq α] (m : List (α × β)) (k k' : α) (v : β)
    (h : k' ≠ k) : assocGet (assocSet m k v) k' = assocGet m k' := by
  induction m with
  | nil => simp [assocGet, assocSet, h]
  | cons hd tl ih =>
    obtain ⟨a, b⟩ := hd
    by_cases hk : k = a
    · subst hk
      simp [assocGet, assocSet, h]
    · by_cases hk' : k' = a
      · subst hk'
        simp [assocGet, assocSet, hk]
      · simp [assocGet, assocSet, hk, hk', ih]

theorem assocSet_ne_nil {α β : Type} [DecidableEq α] (m : List (α × β)) (k : α) (v : β) :
    assocSet m k v ≠ [] := by
  cases m with
  | nil => simp [assocSet]
  | cons hd tl =>
    obtain ⟨a, b⟩ := hd
    by_cases h : k = a <;> simp [assocSet, h]

theorem assocGet_assocDel_self {α β : Type} [DecidableEq α] (m : List (α × β)) (k : α) :
    assocGet (assocDel m k) k = none := by
  induction m with
  | nil => simp [assocGet, assocDel]
  | cons hd tl ih =>
    obtain ⟨a, b⟩ := hd
    by_cases h : k = a
    · subst h
      simp [assocDel, ih]
    · simp [assocGet, assocDel, h, ih]

theorem assocGet_assocDel_ne {α β : Type} [DecidableEq α] (m : List (α × β)) (k k' : α)
    (h : k' ≠ k) : assocGet (assocDel m k) k' = assocGet m k' := by
  induction m with
  | nil => simp [assocDel]
  | cons hd tl ih =>
    obtain ⟨a, b⟩ := hd
    by_cases hk : k = a
    · subst hk
      simp [assocGet, assocDel, h, ih]
    · by_cases hk' : k' = a
      · subst hk'
        simp [assocGet, assocDel, hk]
      · simp [assocGet, assocDel, hk, hk', ih]

theorem maxRecords_ne_none {l : List (OwnerId × LOD)} (h : l ≠ []) :
    maxRecords l ≠ none := by
  cases l with
  | nil => exact absurd rfl h
  | cons hd tl =>
    obtain ⟨a, b⟩ := hd
    cases htl : maxRecords tl <;> simp [maxRecords, htl]

theorem lodMapInsert_snd_shape (m : LODMap) (pos : BlockPosition) (lod : LOD) (owner : OwnerId)
    (h : MapInv m) :
    ∃ recs mx, (lodMapInsert m pos lod owner).2 =
        assocSet m pos { owner_lods := recs, loaded_lod := mx } ∧ mx ≠ none := by
  unfold lodMapInsert
  cases hm : assocGet m pos with
  | none =>
    simp only [hm]
    refine ⟨assocSet [] owner lod, maxRecords (assocSet [] owner lod), ?_, ?_⟩
    · simp [specMaxChanged]
    · exact maxRecords_ne_none (assocSet_ne_nil _ _ _)
  | some bls =>
    simp only [hm]
    by_cases hd : specMaxChanged bls.loaded_lod bls.owner_lods lod
    · simp only [hd, if_true]
      exact ⟨assocSet bls.owner_lods owner lod, maxRecords (assocSet bls.owner_lods owner lod),
        rfl, maxRecords_ne_none (assocSet_ne_nil _ _ _)⟩
    · simp only [hd, if_false]
      exact ⟨assocSet bls.owner_lods owner lod, bls.loaded_lod, rfl, h pos bls hm⟩

theorem mapInv_lodMapInsert (m : LODMap) (pos : BlockPosition) (lod : LOD) (owner : OwnerId)
    (h : MapInv m) : MapInv (lodMapInsert m pos lod owner).2 := by
  obtain ⟨recs, mx, heq, hmx⟩ := lodMapInsert_snd_shape m pos lod owner h
  rw [heq]
  intro p bls hget
  by_cases hp : p = pos
  · subst hp
    rw [assocGet_assocSet_self] at hget
    cases hget
    exact hmx
  · rw [assocGet_assocSet_ne _ _ _ _ hp] at hget
    exact h p bls hget

theorem mapInv_lodMapRemove (m : LODMap) (pos : BlockPosition) (owner : OwnerId)
    (h : MapInv m) : MapInv (lodMapRemove m pos owner).2 := by
  unfold lodMapRemove
  cases hm : assocGet m pos with
  | none => simpa [hm] using h
  | some bls =>
    simp only [hm]
    by_cases hnil : assocDel bls.owner_lods owner = []
    · simp only [hnil, if_true]
      intro p b hget
      by_cases hp : p = pos
      · subst hp
        rw [assocGet_assocDel_self] at hget
        cases hget
      · rw [assocGet_assocDel_ne _ _ _ hp] at hget
        exact h p b hget
    · simp only [hnil, if_false]
      intro p b hget
      by_cases hp : p = pos
      · subst hp
        rw [assocGet_assocSet_self] at hget
        cases hget
        exact maxRecords_ne_none hnil
      · rw [assocGet_assocSet_ne _ _ _ _ hp] at hget
        exact h p b hget

theorem insertBlockOp_ok_lodMap {block : Content} {pos : BlockPosition} {n : Nat}
    {owner : OwnerId} {s s' : ServerState} {ev : List Event}
    (hok : insertBlockOp block pos n owner s = Except.ok (s', ev)) :
    s'.lodMap = (lodMapInsert s.lodMap pos (LOD.LodIndex n) owner).2 := by
  simp only [insertBlockOp] at hok
  split at hok
  · simp only [Except.ok.injEq, Prod.mk.injEq] at hok
    rw [← hok.1]
  · split at hok
    · split at hok <;>
        (simp only [Except.ok.injEq, Prod.mk.injEq] at hok; rw [← hok.1])
    · cases hok

theorem loadRest_ok_lodMap {s : ServerState} {pos : BlockPosition} {new_lod : LOD}
    {owner : OwnerId} {prev_lod : Option LOD} {changed : Bool} {s' : ServerState}
    {ev : List Event}
    (hok : loadRest s pos new_lod owner prev_lod changed = Except.ok (s', ev)) :
    s'.lodMap = s.lodMap ∨
      ∃ lod, s'.lodMap = (lodMapInsert s.lodMap pos lod owner).2 := by
  simp only [loadRest] at hok
  split at hok
  · split at hok
    · split at hok
      · cases hok
      · split at hok
        · split at hok
          · split at hok
            · simp only [Except.ok.injEq, Prod.mk.injEq] at hok
              exact Or.inr ⟨LOD.Placeholder, by rw [← hok.1]⟩
            · cases hok
          · cases hok
        · cases hok
    · rename_i n
      split at hok
      · simp only [Except.ok.injEq, Prod.mk.injEq] at hok
        exact Or.inl (by rw [← hok.1])
      · exact Or.inr ⟨LOD.LodIndex n, insertBlockOp_ok_lodMap hok⟩
  · split at hok
    · simp only [Except.ok.injEq, Prod.mk.injEq] at hok
      exact Or.inr ⟨new_lod, by rw [← hok.1]⟩
    · cases hok

theorem loadOp_ok_lodMap {s : ServerState} {pos : BlockPosition} {new_lod : LOD}
    {owner : OwnerId} {s' : ServerState} {ev : List Event}
    (hok : loadOp s pos new_lod owner = Except.ok (s', ev)) :
    s'.lodMap = s.lodMap ∨
      ∃ lod, s'.lodMap = (lodMapInsert s.lodMap pos lod owner).2 := by
  unfold loadOp at hok
  split at hok
  · split at hok
    · simp only [Except.ok.injEq, Prod.mk.injEq] at hok
      exact Or.inl (by rw [← hok.1])
    · exact loadRest_ok_lodMap hok
  · exact loadRest_ok_lodMap hok
  · exact loadRest_ok_lodMap hok

theorem unloadOp_lodMap (s : ServerState) (pos : BlockPosition) (owner : OwnerId) :
    (unloadOp s pos owner).lodMap = (lodMapRemove s.lodMap pos owner).2 := by
  simp only [unloadOp]
  split
  · rfl
  · split
    · rfl
    · rfl
    · split <;> rfl

theorem reachable_mapInv {s : ServerState} (hs : Reachable s) : MapInv s.lodMap := by
  induction hs with
  | init =>
    intro p bls hget
    cases hget
  | step_load s s' pos lod owner ev _ hok ih =>
    rcases loadOp_ok_lodMap hok with h | ⟨l, h⟩
    · rw [h]; exact ih
    · rw [h]; exact mapInv_lodMapInsert _ _ _ _ ih
  | step_unload s pos owner _ ih =>
    rw [unloadOp_lodMap]
    exact mapInv_lodMapRemove _ _ _ ih
  | step_insert_block s s' block pos n owner ev _ hok ih =>
    rw [insertBlockOp_ok_lodMap hok]
    exact mapInv_lodMapInsert _ _ _ _ ih
  | step_cache_put s pos n c _ ih =>
    exact ih

theorem codeMaxChanged_eq_spec_on_entry (p : LOD) (lods : List (OwnerId × LOD)) (new : LOD) :
    codeMaxChanged (some (some p, lods)) new = specMaxChanged (some p) lods new := rfl

/-- C1: on every reachable coordinator state, the maximum-change decision
computed by `TerrainGameLoader::load` (lines 45-68) agrees with the spec's
§4.1 algorithm on the block's snapshot: lowering changes the maximum iff
fewer than 2 existing records (including the updated owner's, pre-update)
hold at least the previous maximum, raising changes it iff no record holds
at least the new level, and a block with no current maximum always changes
(registry entries with records but no maximum are unreachable). -/
theorem load_decision_matches_spec (s : ServerState) (hs : Reachable s)
    (pos : BlockPosition) (new : LOD) :
    codeMaxChanged (lodMapGet s.lodMap pos) new =
      specMaxChanged (snapshotMax (lodMapGet s.lodMap pos))
        (snapshotRecords (lodMapGet s.lodMap pos)) new := by
  have hinv := reachable_mapInv hs
  cases hg : assocGet s.lodMap pos with
  | none =>
    simp [lodMapGet, hg, codeMaxChanged, snapshotMax, snapshotRecords, specMaxChanged]
  | some bls =>
    cases hl : bls.loaded_lod with
    | none => exact absurd hl (hinv pos bls hg)
    | some p =>
      simp only [lodMapGet, hg, Option.map_some', hl]
      rw [codeMaxChanged_eq_spec_on_entry]
      rfl

/-- Witness for C1 at a concrete reachable state: level-0 content cached,
then loaded by owner 1, then the decision queried for a level-1 request. -/
theorem load_decision_matches_spec_witness :
    codeMaxChanged (lodMapGet stateC1w.lodMap posW) (LOD.LodIndex 1) =
      specMaxChanged (snapshotMax (lodMapGet stateC1w.lodMap posW))
        (snapshotRecords (lodMapGet stateC1w.lodMap posW)) (LOD.LodIndex 1) :=
  load_decision_matches_spec stateC1w
    (Reachable.step_load (cachePut initState posW 0 content10) stateC1w posW
      (LOD.LodIndex 0) 1 []
      (Reachable.step_cache_put initState posW 0 content10 Reachable.init)
      (by decide))
    posW (LOD.LodIndex 1)

/-- C5: a repeated `load` with the level already equal to the block's
current maximum (in particular the owner's own current request) returns at
once: the state is unchanged — registry, physics and placeholder channel
untouched — and no generation fetch is dispatched. -/
theorem repeated_request_same_level_noop (s : ServerState) (pos : BlockPosition)
    (owner : OwnerId) (lvl : LOD) (lods : List (OwnerId × LOD))
    (hget : lodMapGet s.lodMap pos = some (some lvl, lods))
    (hown : assocGet lods owner = some lvl) :
    loadOp s pos lvl owner = Except.ok (s, []) := by
  unfold loadOp
  simp [hget]

/-- Witness for C5: a single owner holding level 1 re-requests level 1. -/
theorem repeated_request_same_level_noop_witness :
    (lodMapGet stateSingleOwner.lodMap posW =
        some (some (LOD.LodIndex 1), [(1, LOD.LodIndex 1)])) ∧
    loadOp stateSingleOwner posW (LOD.LodIndex 1) 1 = Except.ok (stateSingleOwner, []) :=
  ⟨by decide,
    repeated_request_same_level_noop stateSingleOwner posW 1 (LOD.LodIndex 1)
      [(1, LOD.LodIndex 1)] (by decide) (by decide)⟩

/-- C6: when `load` determines the block's maximum unchanged (the request
differs from the current maximum but the §4.1 decision reports no change),
the call performs only the registry insert and returns: the registry insert
yields a `None` transition (so the `assert!(change.is_none())` holds), no
fetch event is emitted, and physics, placeholder channel and cache are
untouched. -/
theorem unchanged_max_bookkeeping_only (s : ServerState) (pos : BlockPosition)
    (new : LOD) (owner : OwnerId) (p : LOD) (lods : List (OwnerId × LOD))
    (hget : lodMapGet s.lodMap pos = some (some p, lods))
    (hne : new ≠ p)
    (hnc : specMaxChanged (some p) lods new = false) :
    loadOp s pos new owner =
      Except.ok ({ s with lodMap := (lodMapInsert s.lodMap pos new owner).2 }, []) ∧
    (lodMapInsert s.lodMap pos new owner).1.2 = none := by
  obtain ⟨bls, hbls, hfb⟩ := Option.map_eq_some'.mp hget
  have hload : bls.loaded_lod = some p := congrArg Prod.fst hfb
  have hrecs : bls.owner_lods = lods := congrArg Prod.snd hfb
  have hins : (lodMapInsert s.lodMap pos new owner).1.2 = none := by
    simp only [lodMapInsert, hbls, hload, hrecs, hnc]
    simp
  refine ⟨?_, hins⟩
  unfold loadOp
  simp only [hget]
  rw [if_neg hne, codeMaxChanged_eq_spec_on_entry, hnc]
  simp only [loadRest, Bool.false_eq_true, if_false, hins, if_true]

/-- Witness for C6: two owners both hold the maximum level 2; a third owner
requests level 0, which cannot change the maximum. -/
theorem unchanged_max_bookkeeping_only_witness :
    (lodMapGet stateTwoAtMax.lodMap posW =
        some (some (LOD.LodIndex 2), [(1, LOD.LodIndex 2), (2, LOD.LodIndex 2)])) ∧
    (loadOp stateTwoAtMax posW (LOD.LodIndex 0) 3 =
        Except.ok
          ({ stateTwoAtMax with
              lodMap := (lodMapInsert stateTwoAtMax.lodMap posW (LOD.LodIndex 0) 3).2 }, []) ∧
      (lodMapInsert stateTwoAtMax.lodMap posW (LOD.LodIndex 0) 3).1.2 = none) :=
  ⟨by decide,
    unchanged_max_bookkeeping_only stateTwoAtMax posW (LOD.LodIndex 0) 3 (LOD.LodIndex 2)
      [(1, LOD.LodIndex 2), (2, LOD.LodIndex 2)] (by decide) (by decide) (by decide)⟩

/-- C7: on `unload` of a real loaded level whose cached content is absent,
the operation completes normally as pure registry bookkeeping: no shapes
are removed, physics and the placeholder channel are untouched, and no
error is raised (the operation is total). -/
theorem unload_missing_cache_no_removal (s : ServerState) (pos : BlockPosition)
    (owner : OwnerId) (old : Option LOD) (ch : Transition) (l : Nat)
    (hrem : (lodMapRemove s.lodMap pos owner).1 = (old, some ch))
    (hloaded : ch.loaded = some (LOD.LodIndex l))
    (hmiss : cacheGet s.cache pos l = none) :
    unloadOp s pos owner = { s with lodMap := (lodMapRemove s.lodMap pos owner).2 } := by
  have h2 : (lodMapRemove s.lodMap pos owner).1.2 = some ch := by rw [hrem]
  simp only [unloadOp, h2, hloaded]
  simp [hmiss]

/-- Witness for C7: a single owner holds level 1 but nothing is cached;
releasing the block removes the registry entry and touches nothing else. -/
theorem unload_missing_cache_no_removal_witness :
    ((lodMapRemove stateSingleOwner.lodMap posW 1).1 =
        (some (LOD.LodIndex 1),
          some { loaded := some (LOD.LodIndex 1), desired := none }) ∧
      cacheGet stateSingleOwner.cache posW 1 = none) ∧
    unloadOp stateSingleOwner posW 1 =
      { stateSingleOwner with lodMap := (lodMapRemove stateSingleOwner.lodMap posW 1).2 } :=
  ⟨by decide,
    unload_missing_cache_no_removal stateSingleOwner posW 1 (some (LOD.LodIndex 1))
      { loaded := some (LOD.LodIndex 1), desired := none } 1 (by decide) (by decide)
      (by decide)⟩

/-- C2: concrete quiescent run violating the maximum invariant.  Owner 1
loads level 0 (cache hit), then re-levels to level 1 (cache hit): the run
dispatches no fetch, the maximum requested level is 1 and its cached
content holds exactly id 20, yet physics still also holds id 10 from the
superseded level 0 — `insert_block` removed the new block's ids instead of
the previously loaded level's, leaving stale geometry resident. -/
theorem relevel_leaves_stale_geometry :
    loadOp stateC2start posW (LOD.LodIndex 0) 1 = Except.ok (stateC2mid, []) ∧
    loadOp stateC2mid posW (LOD.LodIndex 1) 1 = Except.ok (stateC2end, []) ∧
    lodMapGet stateC2end.lodMap posW =
      some (some (LOD.LodIndex 1), [(1, LOD.LodIndex 1)]) ∧
    maxRecords [(1, LOD.LodIndex 1)] = some (LOD.LodIndex 1) ∧
    cacheGet stateC2end.cache posW 1 = some content20 ∧
    stateC2end.physics = [10, 20] ∧
    ¬ (10 : EntityId) ∈ content20.ids := by decide

/-- C3: a reachable two-owner sequence on which the `Placeholder` branch's
assertions fail.  Owner 1 loads level 1 (cache hit); owner 2 then requests
`Placeholder`: the decision algorithm reports a maximum change (owner 1 is
the only record at the maximum, so the count is below 2), the branch is
entered with `prev_lod = Some(Level 1)`, and `load` hits its assertion
instead of completing. -/
theorem placeholder_assertion_fails_reachably :
    loadOp stateC3start posW (LOD.LodIndex 1) 1 = Except.ok (stateC3mid, []) ∧
    loadOp stateC3mid posW LOD.Placeholder 2 = Except.error Crash.assertionFailure := by
  decide

/-- C4: the stale-completion scenario concretely refuted.  From the empty
state, a level-1 request misses the cache and only dispatches a fetch (the
registry is untouched), the release is a no-op, and delivering the stale
level-1 completion makes `insert_block` observe a `Some` transition (not
`None`) and insert the content's shape id 20 — the released block ends up
resident instead of fully unloaded. -/
theorem stale_completion_loads_block :
    loadOp initState posW (LOD.LodIndex 1) 1 =
      Except.ok (initState, [Event.fetch posW 1 1]) ∧
    unloadOp initState posW 1 = initState ∧
    (lodMapInsert initState.lodMap posW (LOD.LodIndex 1) 1).1.2 =
      some { loaded := none, desired := some (LOD.LodIndex 1) } ∧
    insertBlockOp content20 posW 1 1 initState = Except.ok (stateC4end, []) ∧
    stateC4end.physics = [20] := by decide

/-- C8 counterexample: a `Load` event carrying detail level 5 is not
forwarded with that level — the issued call is not `load(pos, Level 5)`. -/
theorem load_event_level_discarded :
    load_placeholders 1 (LODChange.Load posW (LOD.LodIndex 5)) ≠
      CoordinatorCall.load posW (LOD.LodIndex 5) 1 := by decide

/-- C8 amended: the World Update Driver forwards the block position and the
emitting owner of every planner event verbatim, but for `Load` events it
always requests `LOD::Placeholder`, discarding the event's detail level;
`Unload` events are forwarded verbatim. -/
theorem load_placeholders_forwarding (owner : OwnerId) (pos : BlockPosition) (lvl : LOD) :
    load_placeholders owner (LODChange.Load pos lvl) =
      CoordinatorCall.load pos LOD.Placeholder owner ∧
    load_placeholders owner (LODChange.Unload pos) =
      CoordinatorCall.unload pos owner :=
  ⟨rfl, rfl⟩

theorem foldl_preserves {α β : Type} (f : α → β → α) (P : α → Prop)
    (hf : ∀ a x, P a → P (f a x)) :
    ∀ (l : List β) (a : α), P a → P (l.foldl f a) := by
  intro l
  induction l with
  | nil => intro a h; exact h
  | cons hd tl ih => intro a h; exact ih _ (hf a hd h)

theorem foldl_preserves_rel {α β : Type} (f : α → β → α) (R : α → α → Prop)
    (hf : ∀ a b x, R a b → R (f a x) (f b x)) :
    ∀ (l : List β) (a b : α), R a b → R (l.foldl f a) (l.foldl f b) := by
  intro l
  induction l with
  | nil => intro a b h; exact h
  | cons hd tl ih => intro a b h; exact ih _ _ (hf a b hd h)

theorem assocSet_map_fst_of_not_mem {α β : Type} [DecidableEq α] (m : List (α × β)) (k : α)
    (v : β) (h : ¬ k ∈ m.map Prod.fst) :
    (assocSet m k v).map Prod.fst = m.map Prod.fst ++ [k] := by
  induction m with
  | nil => simp [assocSet]
  | cons hd tl ih =>
    obtain ⟨a, b⟩ := hd
    simp only [List.map_cons, List.mem_cons] at h
    push_neg at h
    simp only [assocSet, if_neg h.1]
    simp [ih h.2]

theorem place_terrain_ids {nv : Pnt3 ℚ → Pnt3 ℚ} {ul : Bool} {center : Pnt3 ℚ}
    {tt : TerrainType} {st : TerrainBlock × Nat} {v1 v2 : Pnt3 ℚ} {mx mz Mx Mz : ℚ} :
    (place_terrain nv ul center tt st v1 v2 mx mz Mx Mz).1.ids = st.1.ids ++ [st.2] ∧
      (place_terrain nv ul center tt st v1 v2 mx mz Mx Mz).2 = st.2 + 1 := by
  cases ul <;> simp [place_terrain]

theorem place_terrain_good {nv : Pnt3 ℚ → Pnt3 ℚ} {ul : Bool} {center : Pnt3 ℚ}
    {tt : TerrainType} {st : TerrainBlock × Nat} {v1 v2 : Pnt3 ℚ} {mx mz Mx Mz : ℚ}
    (h : GoodBlock st) : GoodBlock (place_terrain nv ul center tt st v1 v2 mx mz Mx Mz) := by
  obtain ⟨hb, hnd, hlt, htl⟩ := h
  have hnotmem : ¬ st.2 ∈ st.1.ids := fun hmem => lt_irrefl st.2 (hlt st.2 hmem)
  have hkeys : ¬ st.2 ∈ st.1.bounds.map Prod.fst := by rw [hb]; exact hnotmem
  have hbound : ∀ i ∈ st.1.ids ++ [st.2], i < st.2 + 1 := by
    intro i hi
    rcases List.mem_append.mp hi with hi | hi
    · exact Nat.lt_succ_of_lt (hlt i hi)
    · have hieq := List.mem_singleton.mp hi
      subst hieq
      exact Nat.lt_succ_self st.2
  cases ul <;>
    refine ⟨?_, ?_, ?_, ?_⟩
  · simp [place_terrain, assocSet_map_fst_of_not_mem _ _ _ hkeys, hb]
  · simp [place_terrain, List.nodup_append, hnd, hnotmem]
  · simpa [place_terrain] using hbound
  · simp [place_terrain, htl]
  · simp [place_terrain, assocSet_map_fst_of_not_mem _ _ _ hkeys, hb]
  · simp [place_terrain, List.nodup_append, hnd, hnotmem]
  · simpa [place_terrain] using hbound
  · simp [place_terrain, htl]

theorem add_square_good {h : ℚ → ℚ → ℚ} {nv : Pnt3 ℚ → Pnt3 ℚ} {ul : Bool}
    {st : TerrainBlock × Nat} {position : Pnt3 ℚ}
    (hg : GoodBlock st) : GoodBlock (add_square h nv ul st position) := by
  simp only [add_square]
  split
  · exact place_terrain_good (place_terrain_good (place_terrain_good (place_terrain_good hg)))
  · exact hg

/-- C10: every generated client block is internally consistent: the bounds
map's keys are exactly the entries of the ids vector (in order), the ids
are pairwise distinct, and there is one terrain-type entry per id — so id
iteration for shape removal and bounds iteration for shape insertion cover
the same collision geometry. -/
theorem generate_block_internally_consistent (h : ℚ → ℚ → ℚ) (nv : Pnt3 ℚ → Pnt3 ℚ)
    (ul : Bool) (position : Pnt3 Int) (alloc : Nat) :
    ((generate_block h nv ul position alloc).1.bounds.map Prod.fst =
        (generate_block h nv ul position alloc).1.ids) ∧
      (generate_block h nv ul position alloc).1.ids.Nodup ∧
      (generate_block h nv ul position alloc).1.typs.length =
        (generate_block h nv ul position alloc).1.ids.length := by
  have hgood : GoodBlock (generate_block h nv ul position alloc) := by
    simp only [generate_block]
    refine foldl_preserves _ GoodBlock ?_ _ _ ?_
    · intro a x ha
      refine foldl_preserves _ GoodBlock ?_ _ _ ha
      intro a' x' ha'
      exact add_square_good ha'
    · refine ⟨rfl, List.nodup_nil, ?_, rfl⟩
      intro i hi
      cases hi
  exact ⟨hgood.1, hgood.2.1, hgood.2.2.2⟩

theorem place_terrain_sameGeometry {nv : Pnt3 ℚ → Pnt3 ℚ} {ul : Bool} {center : Pnt3 ℚ}
    {tt : TerrainType} {s t : TerrainBlock × Nat} {v1 v2 : Pnt3 ℚ} {mx mz Mx Mz : ℚ}
    (h : SameGeometry s t) :
    SameGeometry (place_terrain nv ul center tt s v1 v2 mx mz Mx Mz)
      (place_terrain nv ul center tt t v1 v2 mx mz Mx Mz) := by
  obtain ⟨hv, hn, ht, hl⟩ := h
  cases ul <;> exact ⟨by simp [place_terrain, hv], by simp [place_terrain, hn],
    by simp [place_terrain, ht], by simp [place_terrain, hl]⟩

theorem add_square_sameGeometry {h : ℚ → ℚ → ℚ} {nv : Pnt3 ℚ → Pnt3 ℚ} {ul : Bool}
    {s t : TerrainBlock × Nat} {position : Pnt3 ℚ}
    (hst : SameGeometry s t) :
    SameGeometry (add_square h nv ul s position) (add_square h nv ul t position) := by
  simp only [add_square]
  split
  · exact place_terrain_sameGeometry (place_terrain_sameGeometry
      (place_terrain_sameGeometry (place_terrain_sameGeometry hst)))
  · exact hst

/-- C9 amended: `Terrain::generate_block` is deterministic in the heightmap
and block position for everything except entity ids: two runs from any two
id-allocator states produce identical vertex coordinates, normals and
terrain types, and the same number of triangles; the entity ids themselves
(and with them the keys of the bounds map) are drawn from the shared
allocator's state and so depend on prior allocations. -/
theorem generate_block_deterministic_up_to_ids (h : ℚ → ℚ → ℚ) (nv : Pnt3 ℚ → Pnt3 ℚ)
    (ul : Bool) (position : Pnt3 Int) (a1 a2 : Nat) :
    (generate_block h nv ul position a1).1.vertex_coordinates =
        (generate_block h nv ul position a2).1.vertex_coordinates ∧
      (generate_block h nv ul position a1).1.normals =
        (generate_block h nv ul position a2).1.normals ∧
      (generate_block h nv ul position a1).1.typs =
        (generate_block h nv ul position a2).1.typs ∧
      (generate_block h nv ul position a1).1.ids.length =
        (generate_block h nv ul position a2).1.ids.length := by
  have hsg : SameGeometry (generate_block h nv ul position a1)
      (generate_block h nv ul position a2) := by
    simp only [generate_block]
    refine foldl_preserves_rel _ SameGeometry ?_ _ _ _ ⟨rfl, rfl, rfl, rfl⟩
    intro a b x hab
    refine foldl_preserves_rel _ SameGeometry ?_ _ _ _ hab
    intro a' b' x' hab'
    exact add_square_sameGeometry hab'
  exact hsg

theorem add_square_ids_append (h : ℚ → ℚ → ℚ) (nv : Pnt3 ℚ → Pnt3 ℚ) (ul : Bool)
    (st : TerrainBlock × Nat) (position : Pnt3 ℚ) :
    ∃ q, (add_square h nv ul st position).1.ids = st.1.ids ++ q := by
  simp only [add_square]
  split
  · refine ⟨[st.2, st.2 + 1, st.2 + 2, st.2 + 3], ?_⟩
    cases ul <;> simp [place_terrain]
  · exact ⟨[], by simp⟩

theorem foldl_ids_append {β : Type} (f : TerrainBlock × Nat → β → TerrainBlock × Nat)
    (hf : ∀ st x, ∃ q, (f st x).1.ids = st.1.ids ++ q) :
    ∀ (l : List β) (st : TerrainBlock × Nat), ∃ q, (l.foldl f st).1.ids = st.1.ids ++ q := by
  intro l
  induction l with
  | nil => intro st; exact ⟨[], by simp⟩
  | cons hd tl ih =>
    intro st
    obtain ⟨q1, h1⟩ := hf st hd
    obtain ⟨q2, h2⟩ := ih (f st hd)
    exact ⟨q1 ++ q2, by rw [List.foldl_cons, h2, h1, List.append_assoc]⟩

theorem add_square_heightZero_ids (nv : Pnt3 ℚ → Pnt3 ℚ) (a : Nat) (p : Pnt3 ℚ)
    (h1 : p.y < 32) (h2 : (32 : ℚ) ≤ p.y + 4) :
    (add_square heightZero nv false (TerrainBlock.empty, a) p).1.ids
      = [a, a + 1, a + 2, a + 3] := by
  have hy : ∀ x z : ℚ, (heightAt heightZero x z).y = 32 := by
    intro x z
    simp only [heightAt, heightZero]
    norm_num
  have hcond : p.y < (heightAt heightZero (p.x + 1/8) (p.z + 1/8)).y ∧
      (heightAt heightZero (p.x + 1/8) (p.z + 1/8)).y ≤ p.y + 4 := by
    rw [hy (p.x + 1/8) (p.z + 1/8)]
    exact ⟨h1, h2⟩
  simp only [add_square, if_pos hcond]
  simp [place_terrain, TerrainBlock.empty]

theorem generate_block_heightZero_head (a : Nat) :
    (generate_block heightZero (fun v => v) false pnt070 a).1.ids.head? = some a := by
  have h16 : List.range 16 = 0 :: (List.range 15).map Nat.succ := by
    rw [show (16 : Nat) = 15 + 1 from rfl, List.range_succ_eq_map]
  obtain ⟨r, hso⟩ : ∃ r, sampleOffsets = ((0 : ℕ) : ℚ) * (1 / 4) :: r := by
    refine ⟨(List.map Nat.succ (List.range 15)).map (fun (i : ℕ) => (i : ℚ) * (1 / 4)), ?_⟩
    unfold sampleOffsets
    rw [h16, List.map_cons]
  have hP : ∀ (st' : TerrainBlock × Nat) (p' : Pnt3 ℚ),
      (∃ q', st'.1.ids = [a, a + 1, a + 2, a + 3] ++ q') →
      ∃ q', (add_square heightZero (fun v => v) false st' p').1.ids
        = [a, a + 1, a + 2, a + 3] ++ q' := by
    intro st' p' hst'
    obtain ⟨q', hq'⟩ := hst'
    obtain ⟨q2, hq2⟩ := add_square_ids_append heightZero (fun v => v) false st' p'
    exact ⟨q' ++ q2, by rw [hq2, hq', List.append_assoc]⟩
  have key : ∃ q, (generate_block heightZero (fun v => v) false pnt070 a).1.ids
      = [a, a + 1, a + 2, a + 3] ++ q := by
    simp only [generate_block]
    rw [hso]
    simp only [List.foldl_cons]
    refine foldl_preserves _
      (fun (st : TerrainBlock × Nat) => ∃ q, st.1.ids = [a, a + 1, a + 2, a + 3] ++ q)
      ?_ _ _ ?_
    · intro st x hst
      exact foldl_preserves _
        (fun (st' : TerrainBlock × Nat) => ∃ q', st'.1.ids = [a, a + 1, a + 2, a + 3] ++ q')
        (fun st' x' h => hP st' _ h) _ _ (hP st _ hst)
    · refine foldl_preserves _
        (fun (st' : TerrainBlock × Nat) => ∃ q', st'.1.ids = [a, a + 1, a + 2, a + 3] ++ q')
        (fun st' x' h => hP st' _ h) _ _ ?_
      refine ⟨[], ?_⟩
      rw [List.append_nil]
      exact add_square_heightZero_ids (fun v => v) a _
        (by norm_num [pnt070]) (by norm_num [pnt070])
  obtain ⟨q, hq⟩ := key
  rw [hq]
  rfl

/-- C9 counterexample: two runs of `Terrain::generate_block` with the same
heightmap and the same block position but different id-allocator states
produce different entity ids — the run started at allocator state 0 begins
with id 0 while the run started at state 5 begins with id 5 — refuting that
generated content is identical regardless of the shared allocator's state. -/
theorem generate_block_ids_depend_on_allocator :
    (generate_block heightZero (fun v => v) false pnt070 0).1.ids ≠
      (generate_block heightZero (fun v => v) false pnt070 5).1.ids := by
  intro hcontra
  have h0 := generate_block_heightZero_head 0
  have h5 := generate_block_heightZero_head 5
  rw [hcontra, h5] at h0
  simp at h0
